import Mathlib

/-!
# TeubeCreamer: the per-channel overdrive circuit and the block processor

Shallow embedding of `Source/TeubeCreamer.h` and `Source/TeubeCreamer.cpp`.

* `float` / `double` arithmetic is idealised as exact arithmetic in a linear
  ordered field `α` (theorems about `std::tanh` instantiate `α` with `ℝ` and
  pass `Real.tanh`). Where rounding decides a property it is made explicit:
  `clipSampleFloat` carries the `float` constants, the rounding and a
  saturating `tanh`, and `castToInt` is the `(int)` conversion of a `double`.
* `std::tanh` and the `juce::dsp::IIR` filter library are not part of the
  repository sources; they are parameters of the embedding (`tanh`, `IIRKit`).
* `juce::SmoothedValue<float>` (linear ramp) is the JUCE library class the
  processor uses for its three parameters; its member functions are embedded
  under the names they have in the library.
* Mutable objects become explicit state: every operation returns the new
  state next to its result.
-/

namespace TeubeCreamer

/-! ## `juce::SmoothedValue<float>` -/

/-- State of a `juce::SmoothedValue<float>` with linear ramping: the members
`currentValue`, `target`, `countdown` of `SmoothedValueBase` and `step`,
`stepsToTarget` of `SmoothedValue`. -/
structure SmoothedValue (α : Type) where
  currentValue : α
  target : α
  countdown : Int
  step : α
  stepsToTarget : Int

namespace SmoothedValue

variable {α : Type} [LinearOrderedField α] [FloorRing α]

/-- A default-constructed `SmoothedValue`: every member is zero. -/
def fresh : SmoothedValue α :=
  { currentValue := 0, target := 0, countdown := 0, step := 0, stepsToTarget := 0 }

/-- `isSmoothing()`: `countdown > 0`. -/
def isSmoothing (s : SmoothedValue α) : Bool :=
  decide (0 < s.countdown)

/-- `getCurrentValue()`. -/
def getCurrentValue (s : SmoothedValue α) : α :=
  s.currentValue

/-- `getTargetValue()`. -/
def getTargetValue (s : SmoothedValue α) : α :=
  s.target

/-- `setCurrentAndTargetValue (newValue)`: `target = currentValue = newValue;
countdown = 0`. -/
def setCurrentAndTargetValue (s : SmoothedValue α) (newValue : α) : SmoothedValue α :=
  { s with target := newValue, currentValue := newValue, countdown := 0 }

/-- `reset (int numSteps)`: `stepsToTarget = numSteps;
setCurrentAndTargetValue (target)`. -/
def resetSteps (s : SmoothedValue α) (numSteps : Int) : SmoothedValue α :=
  setCurrentAndTargetValue { s with stepsToTarget := numSteps } s.target

/-- The conversion `(int)` of a `double` that holds the integer `z`: `z`
itself when it fits a 32-bit `int`. Out of that range the conversion is
undefined in C++; the value given here is what the x86 conversion yields
(`INT_MIN`), and no theorem relies on it. -/
def castToInt (z : Int) : Int :=
  if -2147483648 ≤ z ∧ z ≤ 2147483647 then z else -2147483648

/-- `reset (double sampleRate, double rampLengthInSeconds)`:
`reset ((int) std::floor (rampLengthInSeconds * sampleRate))`. -/
def reset (s : SmoothedValue α) (sampleRate rampLengthInSeconds : α) : SmoothedValue α :=
  resetSteps s (castToInt (Int.floor (rampLengthInSeconds * sampleRate)))

/-- `setTargetValue (newValue)`: nothing happens when the target is unchanged;
with no ramp length the value jumps; otherwise a ramp of `stepsToTarget` steps
from the current value starts (`setStepSize`: `step = (target - currentValue) /
countdown`). -/
def setTargetValue (s : SmoothedValue α) (newValue : α) : SmoothedValue α :=
  if newValue = s.target then s
  else if s.stepsToTarget ≤ 0 then setCurrentAndTargetValue s newValue
  else
    { s with
      target := newValue
      countdown := s.stepsToTarget
      step := (newValue - s.currentValue) / (s.stepsToTarget : α) }

/-- `getNextValue()`: the value returned and the state left behind. When not
smoothing, `target` is returned and nothing changes; otherwise `countdown` is
decremented, the current value moves one `step` (`setNextValue`) or lands on
`target` when the countdown has reached zero, and the new current value is
returned. -/
def getNextValue (s : SmoothedValue α) : α × SmoothedValue α :=
  if s.isSmoothing then
    let s1 : SmoothedValue α := { s with countdown := s.countdown - 1 }
    let s2 : SmoothedValue α :=
      if s1.isSmoothing then { s1 with currentValue := s1.currentValue + s1.step }
      else { s1 with currentValue := s1.target }
    (s2.currentValue, s2)
  else (s.target, s)

end SmoothedValue

/-! ## The `juce::dsp::IIR` interface -/

/-- The part of `juce::dsp::IIR` the circuit calls: coefficient design
(`Coefficients<float>::makeHighPass / makeLowPass (sampleRate, frequency)`),
the state left by `Filter::reset()`, and the one-sample step
`Filter::processSample`. The library is a parameter of the embedding. -/
structure IIRKit (α : Type) where
  Coefficients : Type
  State : Type
  /-- Coefficients of a default-constructed `Filter`. -/
  defaultCoefficients : Coefficients
  makeHighPass : α → α → Coefficients
  makeLowPass : α → α → Coefficients
  /-- The filter memory after `reset()`. -/
  resetState : State
  /-- One step: coefficients, memory before, input sample; gives the output
  sample and the memory after. -/
  processSample : Coefficients → State → α → α × State

/-- A `juce::dsp::IIR::Filter<float>`: its coefficients and its memory. -/
structure Filter {α : Type} (K : IIRKit α) where
  coefficients : K.Coefficients
  state : K.State

namespace Filter

variable {α : Type} {K : IIRKit α}

/-- A default-constructed filter. -/
def default (K : IIRKit α) : Filter K :=
  { coefficients := K.defaultCoefficients, state := K.resetState }

/-- `reset()`: the memory is cleared, the coefficients stay. -/
def reset (f : Filter K) : Filter K :=
  { f with state := K.resetState }

/-- `prepare (spec)`: for this filter it only resets the memory. -/
def prepare (f : Filter K) : Filter K :=
  f.reset

/-- `*filter.coefficients = *newCoefficients`: the memory stays. -/
def setCoefficients (f : Filter K) (c : K.Coefficients) : Filter K :=
  { f with coefficients := c }

/-- `processSample (sample)`: output sample and the filter afterwards. -/
def processSample (f : Filter K) (sample : α) : α × Filter K :=
  ((K.processSample f.coefficients f.state sample).1,
    { f with state := (K.processSample f.coefficients f.state sample).2 })

end Filter

/-! ## `TubeScreamerCircuit` -/

/-- The nested class `TubeScreamerCircuit`: three filters and the sample
rate. -/
structure TubeScreamerCircuit {α : Type} (K : IIRKit α) where
  inputFilter : Filter K
  toneFilter : Filter K
  outputFilter : Filter K
  sampleRate : α

namespace TubeScreamerCircuit

variable {α : Type} [LinearOrderedField α] {K : IIRKit α}

/-- A default-constructed circuit (`double sampleRate = 44100.0`). -/
def default (K : IIRKit α) : TubeScreamerCircuit K :=
  { inputFilter := Filter.default K
    toneFilter := Filter.default K
    outputFilter := Filter.default K
    sampleRate := 44100 }

/-- `clipSample`: asymmetrical soft clipping. -/
def clipSample (tanh : α → α) (sample : α) : α :=
  if sample > 0 then tanh sample
  else tanh (sample * 0.8) * 1.2

/-- The local `toneCutoff` of `updateFilters`: `500.0f + toneParam * 4500.0f`. -/
def toneCutoff (toneParam : α) : α :=
  500 + toneParam * 4500

/-- The local `driveGain` of `processSample`: `1.0f + drive * 50.0f`. -/
def driveGain (drive : α) : α :=
  1 + drive * 50

/-- `updateFilters (driveParam, toneParam)`. -/
def updateFilters (c : TubeScreamerCircuit K) (driveParam toneParam : α) :
    TubeScreamerCircuit K :=
  let inputFilter := c.inputFilter.setCoefficients (K.makeHighPass c.sampleRate 20)
  let toneFilter :=
    c.toneFilter.setCoefficients (K.makeLowPass c.sampleRate (toneCutoff toneParam))
  let outputFilter := c.outputFilter.setCoefficients (K.makeHighPass c.sampleRate 35)
  { c with inputFilter := inputFilter, toneFilter := toneFilter, outputFilter := outputFilter }

/-- `prepare (sampleRateIn, samplesPerBlock)`. The block size only enters the
`ProcessSpec`, which the filters do not read. -/
def prepare (c : TubeScreamerCircuit K) (sampleRateIn : α) (samplesPerBlock : Int) :
    TubeScreamerCircuit K :=
  let c1 : TubeScreamerCircuit K := { c with sampleRate := sampleRateIn }
  let c2 : TubeScreamerCircuit K := { c1 with inputFilter := c1.inputFilter.prepare.reset }
  let c3 : TubeScreamerCircuit K := { c2 with toneFilter := c2.toneFilter.prepare.reset }
  let c4 : TubeScreamerCircuit K := { c3 with outputFilter := c3.outputFilter.prepare.reset }
  c4.updateFilters 0.5 0.5

/-- `processSample (sample, drive, tone, level)`: the output sample and the
circuit afterwards. -/
def processSample (tanh : α → α) (c : TubeScreamerCircuit K) (sample drive tone level : α) :
    α × TubeScreamerCircuit K :=
  let r1 := c.inputFilter.processSample sample
  let sample1 := r1.1 * 3
  let sample2 := sample1 * driveGain drive
  let sample3 := clipSample tanh sample2
  let r2 := c.toneFilter.processSample sample3
  let r3 := c.outputFilter.processSample r2.1
  (r3.1 * level,
    { c with inputFilter := r1.2, toneFilter := r2.2, outputFilter := r3.2 })

end TubeScreamerCircuit

/-! ## `TeubeCreamerAudioProcessor` -/

/-- The three host parameters `drive`, `tone`, `level` as read through
`parameters.getRawParameterValue`. -/
structure Parameters (α : Type) where
  drive : α
  tone : α
  level : α

/-- The processor: the circuits (one per channel), the three smoothed values,
and the bus channel counts `getTotalNumInputChannels()` /
`getTotalNumOutputChannels()`. -/
structure TeubeCreamerAudioProcessor {α : Type} (K : IIRKit α) where
  tubeScreamerCircuits : List (TubeScreamerCircuit K)
  driveSmoothed : SmoothedValue α
  toneSmoothed : SmoothedValue α
  levelSmoothed : SmoothedValue α
  totalNumInputChannels : Nat
  totalNumOutputChannels : Nat

/-- An audio buffer: one list of samples per channel; every channel holds
`getNumSamples()` samples. -/
abbrev AudioBuffer (α : Type) := List (List α)

/-- What the sample loop of one channel leaves: the samples written, the
circuit of that channel and the three smoothed values. -/
structure ChannelResult {α : Type} (K : IIRKit α) where
  samples : List α
  circuit : TubeScreamerCircuit K
  driveSmoothed : SmoothedValue α
  toneSmoothed : SmoothedValue α
  levelSmoothed : SmoothedValue α

/-- What the channel loop leaves: the buffer, the circuits and the three
smoothed values. -/
structure BlockResult {α : Type} (K : IIRKit α) where
  buffer : AudioBuffer α
  circuits : List (TubeScreamerCircuit K)
  driveSmoothed : SmoothedValue α
  toneSmoothed : SmoothedValue α
  levelSmoothed : SmoothedValue α

namespace TeubeCreamerAudioProcessor

variable {α : Type} [LinearOrderedField α] [FloorRing α] {K : IIRKit α}

/-- The constructor: the smoothers are reset at `getSampleRate()` (passed as
`hostSampleRate`) with a 0.05 s ramp and set to the initial parameter values;
there are no circuits yet. -/
def create (K : IIRKit α) (hostSampleRate : α) (initial : Parameters α)
    (numIn numOut : Nat) : TeubeCreamerAudioProcessor K :=
  { tubeScreamerCircuits := []
    driveSmoothed :=
      ((SmoothedValue.fresh : SmoothedValue α).reset hostSampleRate 0.05).setCurrentAndTargetValue
        initial.drive
    toneSmoothed :=
      ((SmoothedValue.fresh : SmoothedValue α).reset hostSampleRate 0.05).setCurrentAndTargetValue
        initial.tone
    levelSmoothed :=
      ((SmoothedValue.fresh : SmoothedValue α).reset hostSampleRate 0.05).setCurrentAndTargetValue
        initial.level
    totalNumInputChannels := numIn
    totalNumOutputChannels := numOut }

/-- `prepareToPlay (sampleRate, samplesPerBlock)`. -/
def prepareToPlay (p : TeubeCreamerAudioProcessor K) (sampleRate : α) (samplesPerBlock : Int) :
    TeubeCreamerAudioProcessor K :=
  { p with
    driveSmoothed := p.driveSmoothed.reset sampleRate 0.05
    toneSmoothed := p.toneSmoothed.reset sampleRate 0.05
    levelSmoothed := p.levelSmoothed.reset sampleRate 0.05
    tubeScreamerCircuits :=
      (List.replicate p.totalNumInputChannels (TubeScreamerCircuit.default K)).map
        fun circuit => circuit.prepare sampleRate samplesPerBlock }

/-- The first loop of `processBlock`: `buffer.clear (i, 0, numSamples)` for the
`count` channels from index `first` on. A channel index past the end of the
buffer is an out-of-bounds access: `none`. -/
def clearChannels : Nat → Nat → AudioBuffer α → Option (AudioBuffer α)
  | 0, 0, buffer => some buffer
  | 0, _ + 1, [] => none
  | 0, count + 1, channelData :: rest =>
    (clearChannels 0 count rest).map fun r => List.replicate channelData.length 0 :: r
  | _ + 1, 0, buffer => some buffer
  | _ + 1, _ + 1, [] => none
  | first + 1, count + 1, channelData :: rest =>
    (clearChannels first (count + 1) rest).map fun r => channelData :: r

/-- The inner loop of `processBlock` over the samples of one channel: for each
sample the three smoothers are asked for their next value and the sample is
run through the circuit of the channel. -/
def processSamples (tanh : α → α) (circuit : TubeScreamerCircuit K)
    (driveSmoothed toneSmoothed levelSmoothed : SmoothedValue α) :
    List α → ChannelResult K
  | [] =>
    { samples := [], circuit := circuit, driveSmoothed := driveSmoothed,
      toneSmoothed := toneSmoothed, levelSmoothed := levelSmoothed }
  | sample :: rest =>
    let drive := driveSmoothed.getNextValue
    let tone := toneSmoothed.getNextValue
    let level := levelSmoothed.getNextValue
    let out := circuit.processSample tanh sample drive.1 tone.1 level.1
    let r := processSamples tanh out.2 drive.2 tone.2 level.2 rest
    { r with samples := out.1 :: r.samples }

/-- The outer loop of `processBlock` over the first `numChannels` channels, in
order; channel `i` is processed by circuit `i`. A missing channel or a missing
circuit is an out-of-bounds access: `none`. Channels past `numChannels` are
left as they are. -/
def processChannels (tanh : α → α) :
    Nat → List (TubeScreamerCircuit K) → AudioBuffer α →
      SmoothedValue α → SmoothedValue α → SmoothedValue α → Option (BlockResult K)
  | 0, circuits, buffer, d, t, l =>
    some { buffer := buffer, circuits := circuits, driveSmoothed := d,
           toneSmoothed := t, levelSmoothed := l }
  | numChannels + 1, circuit :: circuits, channelData :: buffer, d, t, l =>
    let r := processSamples tanh circuit d t l channelData
    (processChannels tanh numChannels circuits buffer r.driveSmoothed r.toneSmoothed
        r.levelSmoothed).map
      fun b => { b with buffer := r.samples :: b.buffer, circuits := r.circuit :: b.circuits }
  | _ + 1, _, _, _, _, _ => none

/-- `processBlock (buffer, midiMessages)`: the processor afterwards and the
buffer contents afterwards. `parameters` are the raw parameter values at the
time of the call. -/
def processBlock (tanh : α → α) (p : TeubeCreamerAudioProcessor K) (parameters : Parameters α)
    (buffer : AudioBuffer α) : Option (TeubeCreamerAudioProcessor K × AudioBuffer α) :=
  (clearChannels p.totalNumInputChannels (p.totalNumOutputChannels - p.totalNumInputChannels)
      buffer).bind fun cleared =>
    let driveSmoothed := p.driveSmoothed.setTargetValue parameters.drive
    let toneSmoothed := p.toneSmoothed.setTargetValue parameters.tone
    let levelSmoothed := p.levelSmoothed.setTargetValue parameters.level
    let circuits := p.tubeScreamerCircuits.map fun circuit =>
      circuit.updateFilters driveSmoothed.getCurrentValue toneSmoothed.getCurrentValue
    (processChannels tanh p.totalNumInputChannels circuits cleared driveSmoothed toneSmoothed
        levelSmoothed).map
      fun r =>
        ({ p with
            tubeScreamerCircuits := r.circuits
            driveSmoothed := r.driveSmoothed
            toneSmoothed := r.toneSmoothed
            levelSmoothed := r.levelSmoothed },
          r.buffer)

/-- The host calling `processBlock` once per entry of `blocks` (parameter
values and buffer of that call), in order: the processor afterwards and the
buffers as the calls left them. -/
def processBlocks (tanh : α → α) (p : TeubeCreamerAudioProcessor K) :
    List (Parameters α × AudioBuffer α) → Option (TeubeCreamerAudioProcessor K × List (AudioBuffer α))
  | [] => some (p, [])
  | block :: rest =>
    (processBlock tanh p block.1 block.2).bind fun r =>
      (processBlocks tanh r.1 rest).map fun q => (q.1, r.2 :: q.2)

end TeubeCreamerAudioProcessor

/-! ## A concrete filter library, for evaluating the processor on examples -/

/-- A first-order IIR library instance: raw coefficients `(b0, b1, a1)`, one
memory cell, the step `y = b0 x + s; s = b1 x - a1 y`, and the bilinear
designs with `tan (π f / sampleRate)` replaced by `3 f / sampleRate`. It is
used only to run the embedding on concrete inputs. -/
def firstOrderKit (α : Type) [Field α] : IIRKit α where
  Coefficients := α × α × α
  State := α
  defaultCoefficients := (1, 0, 0)
  makeHighPass := fun sampleRate frequency =>
    (1 / (3 * frequency / sampleRate + 1), -(1 / (3 * frequency / sampleRate + 1)),
      (3 * frequency / sampleRate - 1) / (3 * frequency / sampleRate + 1))
  makeLowPass := fun sampleRate frequency =>
    (3 * frequency / sampleRate / (3 * frequency / sampleRate + 1),
      3 * frequency / sampleRate / (3 * frequency / sampleRate + 1),
      (3 * frequency / sampleRate - 1) / (3 * frequency / sampleRate + 1))
  resetState := 0
  processSample := fun c s x => (c.1 * x + s, c.2.1 * x - c.2.2 * (c.1 * x + s))

/-- A stereo processor on the first-order library as the host sets it up:
constructed with the three parameters at 0.5 (the sample rate is not known
yet: 0), two input and two output channels, then prepared at `sampleRate` with
block size 1. -/
def stereoExample (α : Type) [LinearOrderedField α] [FloorRing α] (sampleRate : α) :
    TeubeCreamerAudioProcessor (firstOrderKit α) :=
  (TeubeCreamerAudioProcessor.create (firstOrderKit α) 0
      { drive := 0.5, tone := 0.5, level := 0.5 } 2 2).prepareToPlay sampleRate 1

/-- Every filter memory of the circuit is in the state `reset()` leaves. -/
def TubeScreamerCircuit.atRest {α : Type} {K : IIRKit α} (c : TubeScreamerCircuit K) : Prop :=
  c.inputFilter.state = K.resetState ∧ c.toneFilter.state = K.resetState ∧
    c.outputFilter.state = K.resetState

/-- The stereo example after one silent frame `[[0], [0]]` processed with the
level parameter moved from 0.5 to 1: nothing changed but the level smoother,
which is in mid-ramp (two steps into its 2205-step ramp, target 1). -/
def midRampExample (α : Type) [LinearOrderedField α] [FloorRing α] :
    TeubeCreamerAudioProcessor (firstOrderKit α) :=
  { stereoExample α 44100 with
    levelSmoothed :=
      ((stereoExample α 44100).levelSmoothed.setTargetValue 1).getNextValue.2.getNextValue.2 }

/-- The one error of the configuration taxonomy, `InvalidConfiguration`. The
sources declare no error type; this one exists to state that no call ends in
it. -/
inductive ConfigurationError where
  | invalidConfiguration

/-- The outcome of a call of `TubeScreamerCircuit::prepare`. The function
returns `void` and its body has no check, no `throw` and no early return:
every call completes and leaves the prepared circuit. -/
def TubeScreamerCircuit.prepareOutcome {α : Type} [LinearOrderedField α] {K : IIRKit α}
    (c : TubeScreamerCircuit K) (sampleRateIn : α) (samplesPerBlock : Int) :
    Except ConfigurationError (TubeScreamerCircuit K) :=
  Except.ok (c.prepare sampleRateIn samplesPerBlock)

/-- The outcome of a call of `TubeScreamerCircuit::updateFilters`: as for
`prepare`, every call completes. -/
def TubeScreamerCircuit.updateFiltersOutcome {α : Type} [LinearOrderedField α] {K : IIRKit α}
    (c : TubeScreamerCircuit K) (driveParam toneParam : α) :
    Except ConfigurationError (TubeScreamerCircuit K) :=
  Except.ok (c.updateFilters driveParam toneParam)

/-! ## `clipSample` in `float` arithmetic -/

section Clip

open TubeScreamerCircuit

theorem tanh_lt_one (x : ℝ) : Real.tanh x < 1 := by
  rw [Real.tanh_eq_sinh_div_cosh, div_lt_one (Real.cosh_pos x)]
  exact Real.sinh_lt_cosh x

theorem neg_one_lt_tanh (x : ℝ) : -1 < Real.tanh x := by
  have h := tanh_lt_one (-x)
  rw [Real.tanh_neg] at h
  linarith

theorem tanh_strictMono : StrictMono Real.tanh := by
  intro x y hxy
  rw [Real.tanh_eq_sinh_div_cosh, Real.tanh_eq_sinh_div_cosh,
    div_lt_div_iff₀ (Real.cosh_pos x) (Real.cosh_pos y)]
  have h : 0 < Real.sinh (y - x) := Real.sinh_pos_iff.mpr (sub_pos.mpr hxy)
  rw [Real.sinh_sub] at h
  linarith

theorem tanh_pos_of_pos {x : ℝ} (h : 0 < x) : 0 < Real.tanh x := by
  have h1 := tanh_strictMono h
  rwa [Real.tanh_zero] at h1

theorem tanh_nonpos_of_nonpos {x : ℝ} (h : x ≤ 0) : Real.tanh x ≤ 0 := by
  have h1 := tanh_strictMono.monotone h
  rwa [Real.tanh_zero] at h1

theorem tanh_ne_zero_of_ne_zero {x : ℝ} (h : x ≠ 0) : Real.tanh x ≠ 0 := by
  intro h0
  rw [← Real.tanh_zero] at h0
  exact h (tanh_strictMono.injective h0)

theorem clipSample_of_pos {x : ℝ} (h : 0 < x) : clipSample Real.tanh x = Real.tanh x := by
  unfold clipSample
  rw [if_pos h]

theorem clipSample_of_nonpos {x : ℝ} (h : x ≤ 0) :
    clipSample Real.tanh x = Real.tanh (x * 0.8) * 1.2 := by
  unfold clipSample
  rw [if_neg (not_lt.mpr h)]

theorem clipSample_zero : clipSample Real.tanh (0 : ℝ) = 0 := by
  rw [clipSample_of_nonpos le_rfl]
  simp

theorem clipSample_ne_zero {x : ℝ} (h : x ≠ 0) : clipSample Real.tanh x ≠ 0 := by
  rcases lt_or_gt_of_ne h with hx | hx
  · rw [clipSample_of_nonpos hx.le]
    have h1 : x * 0.8 ≠ 0 := by
      have : x * 0.8 < 0 := by linarith
      exact this.ne
    have h2 := tanh_ne_zero_of_ne_zero h1
    intro h3
    apply h2
    linarith
  · rw [clipSample_of_pos hx]
    exact (tanh_pos_of_pos hx).ne'

/-- C4: `clipSample` is the specified piecewise function, `tanh x` for
`x ≥ 0` and `1.2 * tanh (0.8 * x)` for `x < 0`; at `x = 0`, where the code
takes its second branch, both give the same value. -/
theorem clipSample_eq_specified (x : ℝ) :
    clipSample Real.tanh x = if x ≥ 0 then Real.tanh x else 1.2 * Real.tanh (0.8 * x) := by
  rcases lt_trichotomy x 0 with hx | hx | hx
  · rw [clipSample_of_nonpos hx.le, if_neg (not_le.mpr hx)]
    rw [mul_comm x 0.8, mul_comm]
  · subst hx
    rw [clipSample_zero, if_pos le_rfl, Real.tanh_zero]
  · rw [clipSample_of_pos hx, if_pos hx.le]

/-- In exact arithmetic (no rounding, `Real.tanh`, the constants 0.8 and 1.2)
every output of `clipSample` lies strictly between -1.2 and 1.2, and
`clipSample 0 = 0`. -/
theorem clipSample_bounded (x : ℝ) :
    -1.2 < clipSample Real.tanh x ∧ clipSample Real.tanh x < 1.2 ∧
      clipSample Real.tanh (0 : ℝ) = 0 := by
  refine ⟨?_, ?_, clipSample_zero⟩
  · rcases le_or_lt x 0 with hx | hx
    · rw [clipSample_of_nonpos hx]
      have h := neg_one_lt_tanh (x * 0.8)
      norm_num at h ⊢
      linarith
    · rw [clipSample_of_pos hx]
      have h := tanh_pos_of_pos hx
      norm_num
      linarith
  · rcases le_or_lt x 0 with hx | hx
    · rw [clipSample_of_nonpos hx]
      have h : Real.tanh (x * 0.8) ≤ 0 := tanh_nonpos_of_nonpos (by linarith)
      norm_num at h ⊢
      linarith
    · rw [clipSample_of_pos hx]
      have h := tanh_lt_one x
      norm_num
      linarith

/-- C6: `clipSample` is monotonic non-decreasing on the whole line, also
across the branch point 0. -/
theorem clipSample_monotone (x y : ℝ) (hxy : x ≤ y) :
    clipSample Real.tanh x ≤ clipSample Real.tanh y := by
  rcases le_or_lt y 0 with hy | hy
  · rw [clipSample_of_nonpos (hxy.trans hy), clipSample_of_nonpos hy]
    have h : Real.tanh (x * 0.8) ≤ Real.tanh (y * 0.8) :=
      tanh_strictMono.monotone (by linarith)
    linarith
  · rcases le_or_lt x 0 with hx | hx
    · rw [clipSample_of_nonpos hx, clipSample_of_pos hy]
      have h1 : Real.tanh (x * 0.8) ≤ 0 := tanh_nonpos_of_nonpos (by linarith)
      have h2 := tanh_pos_of_pos hy
      linarith
    · rw [clipSample_of_pos hx, clipSample_of_pos hy]
      exact tanh_strictMono.monotone hxy

/-- C6 at a pair that straddles the branch point: `clipSample (-1) ≤ clipSample 1`. -/
theorem clipSample_monotone_witness :
    (-1 : ℝ) ≤ 1 ∧ clipSample Real.tanh (-1 : ℝ) ≤ clipSample Real.tanh (1 : ℝ) :=
  ⟨by norm_num, clipSample_monotone (-1) 1 (by norm_num)⟩

end Clip

/-! ## The circuit -/

section Circuit

open TubeScreamerCircuit

variable {α : Type} [LinearOrderedField α] {K : IIRKit α}

/-- C3: `processSample` returns `level * outputHP (toneLP (clip (inputHP input
* 3 * (1 + drive * 50))))`; each of the three filters is stepped exactly once,
in that order (the circuit afterwards holds the three stepped filters and the
same sample rate); the result does not depend on the `tone` argument; and for
`drive` in `[0, 1]` the drive gain lies in `[1, 51]`. -/
theorem processSample_chain (tanh : α → α) (c : TubeScreamerCircuit K)
    (input drive tone level : α) :
    c.processSample tanh input drive tone level =
        (level *
            (c.outputFilter.processSample
              (c.toneFilter.processSample
                (clipSample tanh
                  ((c.inputFilter.processSample input).1 * 3 * (1 + drive * 50)))).1).1,
          { inputFilter := (c.inputFilter.processSample input).2
            toneFilter :=
              (c.toneFilter.processSample
                (clipSample tanh
                  ((c.inputFilter.processSample input).1 * 3 * (1 + drive * 50)))).2
            outputFilter :=
              (c.outputFilter.processSample
                (c.toneFilter.processSample
                  (clipSample tanh
                    ((c.inputFilter.processSample input).1 * 3 * (1 + drive * 50)))).1).2
            sampleRate := c.sampleRate }) ∧
      (∀ tone2 : α,
        c.processSample tanh input drive tone2 level =
          c.processSample tanh input drive tone level) ∧
      (0 ≤ drive → drive ≤ 1 → 1 ≤ driveGain drive ∧ driveGain drive ≤ 51) := by
  refine ⟨?_, fun _ => rfl, fun h0 h1 => ?_⟩
  · simp only [TubeScreamerCircuit.processSample, driveGain]
    rw [mul_comm level]
  · unfold driveGain
    constructor <;> linarith

/-- C3 on the first-order library at full drive: the gain is 51, inside
`[1, 51]`. -/
theorem processSample_chain_witness :
    (0 : ℚ) ≤ 1 ∧ (1 : ℚ) ≤ 1 ∧ 1 ≤ driveGain (1 : ℚ) ∧ driveGain (1 : ℚ) ≤ 51 :=
  ⟨by norm_num, by norm_num,
    (processSample_chain (K := firstOrderKit ℚ) id
      (TubeScreamerCircuit.default (firstOrderKit ℚ)) 1 1 0 1).2.2 (by norm_num) (by norm_num)⟩

/-- C7: `updateFilters` stores the high-pass designed at 20 Hz, the low-pass
designed at `500 + toneParam * 4500` Hz and the high-pass designed at 35 Hz,
each at the sample rate of the circuit, which is the rate `prepare` was given;
the memories and the sample rate stay; nothing depends on `driveParam`; and
for `toneParam` in `[0, 1]` the tone cutoff lies in `[500, 5000]`. -/
theorem updateFilters_cutoffs (c : TubeScreamerCircuit K) (driveParam toneParam : α) :
    c.updateFilters driveParam toneParam =
        { inputFilter :=
            { coefficients := K.makeHighPass c.sampleRate 20, state := c.inputFilter.state }
          toneFilter :=
            { coefficients := K.makeLowPass c.sampleRate (500 + toneParam * 4500)
              state := c.toneFilter.state }
          outputFilter :=
            { coefficients := K.makeHighPass c.sampleRate 35, state := c.outputFilter.state }
          sampleRate := c.sampleRate } ∧
      (∀ (sampleRateIn : α) (samplesPerBlock : Int),
        (c.prepare sampleRateIn samplesPerBlock).sampleRate = sampleRateIn) ∧
      (∀ drive2 : α, c.updateFilters drive2 toneParam = c.updateFilters driveParam toneParam) ∧
      (0 ≤ toneParam → toneParam ≤ 1 →
        500 ≤ toneCutoff toneParam ∧ toneCutoff toneParam ≤ 5000) := by
  refine ⟨rfl, fun _ _ => rfl, fun _ => rfl, fun h0 h1 => ?_⟩
  unfold toneCutoff
  constructor <;> linarith

/-- C7 on the first-order library at `toneParam = 1`: the cutoff is 5000 Hz,
inside `[500, 5000]`. -/
theorem updateFilters_cutoffs_witness :
    (0 : ℚ) ≤ 1 ∧ (1 : ℚ) ≤ 1 ∧ 500 ≤ toneCutoff (1 : ℚ) ∧ toneCutoff (1 : ℚ) ≤ 5000 :=
  ⟨by norm_num, by norm_num,
    (updateFilters_cutoffs (TubeScreamerCircuit.default (firstOrderKit ℚ)) 0 1).2.2.2
      (by norm_num) (by norm_num)⟩

end Circuit

/-! ## The block loops -/

section Loops

open TeubeCreamerAudioProcessor

variable {α : Type} [LinearOrderedField α] {K : IIRKit α}

theorem clearChannels_count_zero (first : Nat) (buffer : AudioBuffer α) :
    clearChannels first 0 buffer = some buffer := by
  cases first <;> cases buffer <;> rfl

theorem clearChannels_some (first count : Nat) (buffer : AudioBuffer α)
    (h : first + count ≤ buffer.length) :
    ∃ cleared, clearChannels first count buffer = some cleared ∧
      cleared.map List.length = buffer.map List.length ∧
      cleared.take first = buffer.take first := by
  induction buffer generalizing first count with
  | nil =>
    have h1 : first = 0 := by simp at h; omega
    have h2 : count = 0 := by simp at h; omega
    subst h1 h2
    exact ⟨[], rfl, rfl, rfl⟩
  | cons channelData rest ih =>
    cases first with
    | zero =>
      cases count with
      | zero => exact ⟨channelData :: rest, rfl, rfl, rfl⟩
      | succ count =>
        obtain ⟨r, hr, hlen, _⟩ := ih 0 count (by simp at h; omega)
        refine ⟨List.replicate channelData.length 0 :: r, ?_, ?_, rfl⟩
        · simp [clearChannels, hr]
        · simp [hlen]
    | succ first =>
      cases count with
      | zero => exact ⟨channelData :: rest, rfl, rfl, rfl⟩
      | succ count =>
        obtain ⟨r, hr, hlen, htake⟩ := ih first (count + 1) (by simp at h; omega)
        refine ⟨channelData :: r, ?_, ?_, ?_⟩
        · simp [clearChannels, hr]
        · simp [hlen]
        · simp [htake]

theorem processSamples_smoothers (tanh : α → α) (circuit : TubeScreamerCircuit K)
    (d t l : SmoothedValue α) (data : List α) :
    (processSamples tanh circuit d t l data).driveSmoothed =
        (fun s : SmoothedValue α => s.getNextValue.2)^[data.length] d ∧
      (processSamples tanh circuit d t l data).toneSmoothed =
        (fun s : SmoothedValue α => s.getNextValue.2)^[data.length] t ∧
      (processSamples tanh circuit d t l data).levelSmoothed =
        (fun s : SmoothedValue α => s.getNextValue.2)^[data.length] l := by
  induction data generalizing circuit d t l with
  | nil => exact ⟨rfl, rfl, rfl⟩
  | cons x xs ih =>
    simp only [processSamples, List.length_cons, Function.iterate_succ_apply]
    exact ih _ _ _ _

theorem processChannels_smoothers (tanh : α → α) (numChannels N : Nat)
    (circuits : List (TubeScreamerCircuit K)) (buffer : AudioBuffer α)
    (d t l : SmoothedValue α) (hc : numChannels ≤ circuits.length)
    (hb : numChannels ≤ buffer.length) (hN : ∀ ch ∈ buffer.take numChannels, ch.length = N) :
    ∃ r, processChannels tanh numChannels circuits buffer d t l = some r ∧
      r.driveSmoothed =
        (fun s : SmoothedValue α => s.getNextValue.2)^[numChannels * N] d ∧
      r.toneSmoothed =
        (fun s : SmoothedValue α => s.getNextValue.2)^[numChannels * N] t ∧
      r.levelSmoothed =
        (fun s : SmoothedValue α => s.getNextValue.2)^[numChannels * N] l := by
  induction numChannels generalizing circuits buffer d t l with
  | zero => exact ⟨_, rfl, by simp, by simp, by simp⟩
  | succ n ih =>
    cases circuits with
    | nil => simp at hc
    | cons circuit circuits =>
      cases buffer with
      | nil => simp at hb
      | cons channelData buffer =>
        have hlen : channelData.length = N := hN channelData (by simp)
        obtain ⟨hd, ht, hl⟩ := processSamples_smoothers tanh circuit d t l channelData
        obtain ⟨r, hr, hrd, hrt, hrl⟩ :=
          ih circuits buffer (processSamples tanh circuit d t l channelData).driveSmoothed
            (processSamples tanh circuit d t l channelData).toneSmoothed
            (processSamples tanh circuit d t l channelData).levelSmoothed
            (by simpa using hc) (by simpa using hb)
            (fun ch hch => hN ch (by simp [List.take_succ_cons, hch]))
        refine ⟨_, by simp only [processChannels, hr, Option.map_some']; rfl, ?_, ?_, ?_⟩
        · simp only [hrd, hd, hlen, Nat.succ_mul, Function.iterate_add_apply]
        · simp only [hrt, ht, hlen, Nat.succ_mul, Function.iterate_add_apply]
        · simp only [hrl, hl, hlen, Nat.succ_mul, Function.iterate_add_apply]

/-- C1: what the code does. In a block of `N` samples on `C` input channels
`processBlock` asks each of the three smoothers for its next value `C * N`
times, once per (channel, sample) pair: each smoother ends in the state that
`C * N` calls of `getNextValue` leave, starting from the state after
`setTargetValue`. -/
theorem processBlock_advances_smoothers (tanh : α → α) (p : TeubeCreamerAudioProcessor K)
    (parameters : Parameters α) (buffer : AudioBuffer α) (C N : Nat)
    (hC : p.totalNumInputChannels = C) (hcirc : p.tubeScreamerCircuits.length = C)
    (hin : C ≤ buffer.length) (hout : p.totalNumOutputChannels ≤ buffer.length)
    (hN : ∀ ch ∈ buffer, ch.length = N) :
    ∃ q out, processBlock tanh p parameters buffer = some (q, out) ∧
      q.driveSmoothed =
        (fun s : SmoothedValue α => s.getNextValue.2)^[C * N]
          (p.driveSmoothed.setTargetValue parameters.drive) ∧
      q.toneSmoothed =
        (fun s : SmoothedValue α => s.getNextValue.2)^[C * N]
          (p.toneSmoothed.setTargetValue parameters.tone) ∧
      q.levelSmoothed =
        (fun s : SmoothedValue α => s.getNextValue.2)^[C * N]
          (p.levelSmoothed.setTargetValue parameters.level) := by
  subst hC
  obtain ⟨cleared, hcl, hlen, htake⟩ :=
    clearChannels_some p.totalNumInputChannels
      (p.totalNumOutputChannels - p.totalNumInputChannels) buffer (by omega)
  have hlen2 : cleared.length = buffer.length := by
    have h := congrArg List.length hlen
    simpa using h
  obtain ⟨r, hr, hd, ht, hl⟩ :=
    processChannels_smoothers tanh p.totalNumInputChannels N
      (p.tubeScreamerCircuits.map fun circuit =>
        circuit.updateFilters
          (p.driveSmoothed.setTargetValue parameters.drive).getCurrentValue
          (p.toneSmoothed.setTargetValue parameters.tone).getCurrentValue)
      cleared (p.driveSmoothed.setTargetValue parameters.drive)
      (p.toneSmoothed.setTargetValue parameters.tone)
      (p.levelSmoothed.setTargetValue parameters.level)
      (by simp [hcirc]) (by omega)
      (fun ch hch => hN ch (by rw [htake] at hch; exact List.mem_of_mem_take hch))
  refine ⟨{ p with
              tubeScreamerCircuits := r.circuits
              driveSmoothed := r.driveSmoothed
              toneSmoothed := r.toneSmoothed
              levelSmoothed := r.levelSmoothed }, r.buffer, ?_, hd, ht, hl⟩
  simp only [processBlock, hcl, Option.bind_eq_bind, Option.some_bind, hr, Option.map_some']

theorem floor_ramp (α : Type) [LinearOrderedField α] [FloorRing α] :
    Int.floor ((0.05 : α) * 44100) = 2205 := by
  have h : (0.05 : α) * 44100 = 2205 := by norm_num
  rw [h]
  exact Int.floor_ofNat 2205

theorem castToInt_of_fits {z : Int} (hlo : -2147483648 ≤ z) (hhi : z ≤ 2147483647) :
    SmoothedValue.castToInt z = z := by
  unfold SmoothedValue.castToInt
  rw [if_pos ⟨hlo, hhi⟩]

theorem stereoExample_levelSmoothed :
    (stereoExample ℝ 44100).levelSmoothed =
      { currentValue := 0.5, target := 0.5, countdown := 0, step := 0,
        stepsToTarget := 2205 } := by
  simp [stereoExample, create, prepareToPlay, SmoothedValue.reset, SmoothedValue.resetSteps,
    SmoothedValue.setCurrentAndTargetValue, SmoothedValue.fresh, floor_ramp,
    SmoothedValue.castToInt]

/-- C1 at the failing input: the stereo processor prepared at 44100 Hz (ramp
of 2205 steps), the level parameter moved from 0.5 to 1, one sample frame
`[[1], [1]]`. The block holds ONE frame, yet the level smoother ends two steps
into its ramp (countdown 2203, value 0.5 + 2/4410); one `getNextValue` call
would leave countdown 2204 and value 0.5 + 1/4410. -/
theorem processBlock_advances_smoothers_witness :
    ∃ q out,
      processBlock Real.tanh (stereoExample ℝ 44100) { drive := 0.5, tone := 0.5, level := 1 }
          [[1], [1]] = some (q, out) ∧
        q.levelSmoothed =
          (fun s : SmoothedValue ℝ => s.getNextValue.2)^[2 * 1]
            ((stereoExample ℝ 44100).levelSmoothed.setTargetValue 1) ∧
        q.levelSmoothed =
          { currentValue := 0.5 + 2 / 4410, target := 1, countdown := 2203, step := 1 / 4410,
            stepsToTarget := 2205 } ∧
        (fun s : SmoothedValue ℝ => s.getNextValue.2)^[1]
            ((stereoExample ℝ 44100).levelSmoothed.setTargetValue 1) =
          { currentValue := 0.5 + 1 / 4410, target := 1, countdown := 2204, step := 1 / 4410,
            stepsToTarget := 2205 } := by
  obtain ⟨q, out, h, _, _, hl⟩ :=
    processBlock_advances_smoothers Real.tanh (stereoExample ℝ 44100)
      { drive := 0.5, tone := 0.5, level := 1 } [[1], [1]] 2 1 rfl
      (by simp [stereoExample, create, prepareToPlay]) (by simp) (by simp [stereoExample, create, prepareToPlay])
      (by simp)
  refine ⟨q, out, h, hl, ?_, ?_⟩
  · rw [hl, stereoExample_levelSmoothed]
    simp [SmoothedValue.setTargetValue, SmoothedValue.getNextValue, SmoothedValue.isSmoothing]
    norm_num
  · rw [stereoExample_levelSmoothed]
    simp [SmoothedValue.setTargetValue, SmoothedValue.getNextValue, SmoothedValue.isSmoothing]
    norm_num

theorem processBlock_stereo_one_sample (tanh : α → α) (p : TeubeCreamerAudioProcessor K)
    (parameters : Parameters α) (x y : α) (c0 c1 : TubeScreamerCircuit K)
    (hin : p.totalNumInputChannels = 2) (hout : p.totalNumOutputChannels = 2)
    (hcirc : p.tubeScreamerCircuits = [c0, c1]) :
    ∃ q, processBlock tanh p parameters [[x], [y]] =
      some (q,
        [[((c0.updateFilters (p.driveSmoothed.setTargetValue parameters.drive).getCurrentValue
              (p.toneSmoothed.setTargetValue parameters.tone).getCurrentValue).processSample tanh x
            (p.driveSmoothed.setTargetValue parameters.drive).getNextValue.1
            (p.toneSmoothed.setTargetValue parameters.tone).getNextValue.1
            (p.levelSmoothed.setTargetValue parameters.level).getNextValue.1).1],
         [((c1.updateFilters (p.driveSmoothed.setTargetValue parameters.drive).getCurrentValue
              (p.toneSmoothed.setTargetValue parameters.tone).getCurrentValue).processSample tanh y
            (p.driveSmoothed.setTargetValue parameters.drive).getNextValue.2.getNextValue.1
            (p.toneSmoothed.setTargetValue parameters.tone).getNextValue.2.getNextValue.1
            (p.levelSmoothed.setTargetValue parameters.level).getNextValue.2.getNextValue.1).1]]) := by
  simp only [processBlock, hin, hout, Nat.sub_self, clearChannels_count_zero, hcirc,
    Option.bind_eq_bind, Option.some_bind, List.map_cons, List.map_nil, processChannels,
    processSamples, Option.map_some']
  exact ⟨_, rfl⟩

theorem getNextValue_of_not_smoothing (s : SmoothedValue α) (h : s.countdown ≤ 0) :
    s.getNextValue = (s.target, s) := by
  have h1 : s.isSmoothing = false := by
    simp [SmoothedValue.isSmoothing, h]
  simp [SmoothedValue.getNextValue, h1]

theorem getNextValue_ramp_first_two (s : SmoothedValue α) (newValue : α)
    (hsteps : 2 ≤ s.stepsToTarget) (hne : newValue ≠ s.target)
    (hcur : s.currentValue = s.target) :
    (s.setTargetValue newValue).getNextValue.1 ≠
      (s.setTargetValue newValue).getNextValue.2.getNextValue.1 := by
  have hS : (0 : α) < (s.stepsToTarget : α) := by
    have : (0 : Int) < s.stepsToTarget := by omega
    exact_mod_cast this
  have hstep : (newValue - s.currentValue) / (s.stepsToTarget : α) ≠ 0 := by
    apply div_ne_zero _ hS.ne'
    rw [hcur]
    exact sub_ne_zero.mpr hne
  have h0 : ¬ s.stepsToTarget ≤ 0 := by omega
  have h1 : (0 : Int) < s.stepsToTarget := by omega
  have h2 : (0 : Int) < s.stepsToTarget - 1 := by omega
  simp only [SmoothedValue.setTargetValue, if_neg hne, if_neg h0, SmoothedValue.getNextValue,
    SmoothedValue.isSmoothing, h1, h2, decide_True, if_true]
  by_cases h3 : (0 : Int) < s.stepsToTarget - 1 - 1
  · simp only [h3, decide_True, if_true]
    intro h
    apply hstep
    linarith
  · simp only [h3, decide_False, Bool.false_eq_true, if_false]
    have h4 : s.stepsToTarget = 2 := by omega
    intro h
    apply hstep
    rw [h4] at h ⊢
    push_cast at h ⊢
    linarith

theorem setTargetValue_currentValue (s : SmoothedValue α) (newValue : α)
    (hsteps : 0 < s.stepsToTarget) :
    (s.setTargetValue newValue).currentValue = s.currentValue := by
  unfold SmoothedValue.setTargetValue
  split_ifs with h1 h2
  · rfl
  · omega
  · rfl

theorem setTargetValue_same (s : SmoothedValue α) : s.setTargetValue s.target = s := by
  simp [SmoothedValue.setTargetValue]


end Loops

section Stereo

open TeubeCreamerAudioProcessor TubeScreamerCircuit

/-- C2: what the code does. A stereo processor is prepared at a sample rate
that gives a ramp of at least two steps (a number that fits an `int`); the drive parameter stays where it
is (and is not negative), the level parameter moves; the filters answer a
non-zero first sample with a non-zero output. Then one frame holding the same
non-zero sample `x` on both channels comes out with DIFFERENT samples on the
two channels: channel 0 is scaled by the first value of the level ramp,
channel 1 by the second. -/
theorem processBlock_stereo_identical_input_differs (K : IIRKit ℝ)
    (p0 : TeubeCreamerAudioProcessor K) (sampleRate : ℝ) (samplesPerBlock : Int)
    (parameters : Parameters ℝ) (x : ℝ)
    (hin : p0.totalNumInputChannels = 2) (hout : p0.totalNumOutputChannels = 2)
    (hsteps : 2 ≤ Int.floor (0.05 * sampleRate))
    (hfits : Int.floor (0.05 * sampleRate) ≤ 2147483647)
    (hdrive : parameters.drive = p0.driveSmoothed.target) (hd0 : 0 ≤ parameters.drive)
    (hlevel : parameters.level ≠ p0.levelSmoothed.target) (hx : x ≠ 0)
    (hHP20 : ∀ v : ℝ, v ≠ 0 →
      (K.processSample (K.makeHighPass sampleRate 20) K.resetState v).1 ≠ 0)
    (hLP : ∀ v : ℝ, v ≠ 0 →
      (K.processSample (K.makeLowPass sampleRate (toneCutoff p0.toneSmoothed.target))
        K.resetState v).1 ≠ 0)
    (hHP35 : ∀ v : ℝ, v ≠ 0 →
      (K.processSample (K.makeHighPass sampleRate 35) K.resetState v).1 ≠ 0) :
    ∃ q a b,
      processBlock Real.tanh (p0.prepareToPlay sampleRate samplesPerBlock) parameters
          [[x], [x]] = some (q, [[a], [b]]) ∧
        a ≠ b := by
  have hcirc : (p0.prepareToPlay sampleRate samplesPerBlock).tubeScreamerCircuits =
      [(TubeScreamerCircuit.default K).prepare sampleRate samplesPerBlock,
        (TubeScreamerCircuit.default K).prepare sampleRate samplesPerBlock] := by
    simp [prepareToPlay, hin, List.replicate]
  obtain ⟨q, hq⟩ := processBlock_stereo_one_sample Real.tanh
    (p0.prepareToPlay sampleRate samplesPerBlock) parameters x x _ _ hin hout hcirc
  refine ⟨q, _, _, hq, ?_⟩
  have hst : SmoothedValue.castToInt (Int.floor (0.05 * sampleRate)) =
      Int.floor (0.05 * sampleRate) := castToInt_of_fits (by omega) hfits
  -- the drive smoother is at rest: both channels see the same drive value
  have hD : (p0.prepareToPlay sampleRate samplesPerBlock).driveSmoothed.setTargetValue
      parameters.drive = p0.driveSmoothed.reset sampleRate 0.05 := by
    rw [hdrive]
    exact setTargetValue_same (p0.driveSmoothed.reset sampleRate 0.05)
  have hDn : (p0.driveSmoothed.reset sampleRate 0.05).getNextValue =
      (p0.driveSmoothed.target, p0.driveSmoothed.reset sampleRate 0.05) :=
    getNextValue_of_not_smoothing _ le_rfl
  -- the tone value the filters are designed from
  have hT : ((p0.prepareToPlay sampleRate samplesPerBlock).toneSmoothed.setTargetValue
      parameters.tone).getCurrentValue = p0.toneSmoothed.target :=
    setTargetValue_currentValue (p0.toneSmoothed.reset sampleRate 0.05) parameters.tone
      (by
        show 0 < SmoothedValue.castToInt (Int.floor (0.05 * sampleRate))
        rw [hst]
        omega)
  -- the level ramp gives the two channels different values
  have hL := getNextValue_ramp_first_two (p0.levelSmoothed.reset sampleRate 0.05)
    parameters.level
    (by
      show 2 ≤ SmoothedValue.castToInt (Int.floor (0.05 * sampleRate))
      rw [hst]
      exact hsteps)
    hlevel rfl
  rw [hD, hT, hDn]
  simp only [hDn]
  have hgain : driveGain p0.driveSmoothed.target ≠ 0 := by
    unfold driveGain
    rw [← hdrive]
    have : (0 : ℝ) < 1 + parameters.drive * 50 := by linarith
    exact this.ne'
  simp only [TubeScreamerCircuit.processSample]
  have hi : ((((TubeScreamerCircuit.default K).prepare sampleRate samplesPerBlock).updateFilters
      (p0.driveSmoothed.reset sampleRate 0.05).getCurrentValue
      p0.toneSmoothed.target).inputFilter.processSample x).1 ≠ 0 := hHP20 x hx
  have hc := clipSample_ne_zero (mul_ne_zero (mul_ne_zero hi (by norm_num : (3 : ℝ) ≠ 0)) hgain)
  have hs := hHP35 _ (hLP _ hc)
  exact fun h => hL (mul_left_cancel₀ hs h)

/-- C2 at the failing input: the stereo processor prepared at 44100 Hz, level
moved from 0.5 to 1, the frame `[[1], [1]]`: the two output samples differ. -/
theorem processBlock_stereo_identical_input_differs_witness :
    ∃ q a b,
      processBlock Real.tanh (stereoExample ℝ 44100) { drive := 0.5, tone := 0.5, level := 1 }
          [[1], [1]] = some (q, [[a], [b]]) ∧
        a ≠ b :=
  processBlock_stereo_identical_input_differs (firstOrderKit ℝ)
    (create (firstOrderKit ℝ) 0 { drive := 0.5, tone := 0.5, level := 0.5 } 2 2) 44100 1
    { drive := 0.5, tone := 0.5, level := 1 } 1 rfl rfl
    (by rw [floor_ramp]; norm_num) (by rw [floor_ramp]; norm_num) rfl (by norm_num)
    (by simp [create, SmoothedValue.setCurrentAndTargetValue]; norm_num) one_ne_zero
    (by intro v hv; simp [firstOrderKit]; exact ⟨by norm_num, hv⟩)
    (by intro v hv; simp [firstOrderKit, toneCutoff, create, SmoothedValue.setCurrentAndTargetValue]; exact ⟨by norm_num, hv⟩)
    (by intro v hv; simp [firstOrderKit]; exact ⟨by norm_num, hv⟩)

end Stereo

/-! ## Silence -/

section Silence

open TeubeCreamerAudioProcessor TubeScreamerCircuit

variable {α : Type} [LinearOrderedField α]

theorem clearChannels_of_zero (first count : Nat) (buffer : AudioBuffer α)
    (h : first + count ≤ buffer.length) (hzero : ∀ ch ∈ buffer, ∀ x ∈ ch, x = 0) :
    clearChannels first count buffer = some buffer := by
  induction buffer generalizing first count with
  | nil =>
    have h1 : first = 0 := by simp at h; omega
    have h2 : count = 0 := by simp at h; omega
    subst h1 h2
    rfl
  | cons channelData rest ih =>
    have hrest : ∀ ch ∈ rest, ∀ x ∈ ch, x = 0 := fun ch hch => hzero ch (by simp [hch])
    cases first with
    | zero =>
      cases count with
      | zero => rfl
      | succ count =>
        have hr := ih 0 count (by simp at h; omega) hrest
        have hc : List.replicate channelData.length (0 : α) = channelData :=
          (List.eq_replicate_iff.mpr ⟨rfl, hzero channelData (by simp)⟩).symm
        simp [clearChannels, hr, hc]
    | succ first =>
      cases count with
      | zero => rfl
      | succ count =>
        have hr := ih first (count + 1) (by simp at h; omega) hrest
        simp [clearChannels, hr]

variable {K : IIRKit ℝ}

theorem filter_processSample_zero
    (hz : ∀ c : K.Coefficients, K.processSample c K.resetState 0 = (0, K.resetState))
    (f : Filter K) (hf : f.state = K.resetState) : f.processSample 0 = (0, f) := by
  cases f with
  | mk coefficients state =>
    simp only at hf
    subst hf
    simp only [Filter.processSample, hz]

theorem processSample_zero_of_atRest
    (hz : ∀ c : K.Coefficients, K.processSample c K.resetState 0 = (0, K.resetState))
    (c : TubeScreamerCircuit K) (hc : c.atRest) (drive tone level : ℝ) :
    c.processSample Real.tanh 0 drive tone level = (0, c) := by
  obtain ⟨h1, h2, h3⟩ := hc
  simp only [TubeScreamerCircuit.processSample, filter_processSample_zero hz _ h1, zero_mul,
    clipSample_zero, filter_processSample_zero hz _ h2, filter_processSample_zero hz _ h3]

theorem processSamples_zero
    (hz : ∀ c : K.Coefficients, K.processSample c K.resetState 0 = (0, K.resetState))
    (c : TubeScreamerCircuit K) (hc : c.atRest) (d t l : SmoothedValue ℝ) (data : List ℝ)
    (hdata : ∀ x ∈ data, x = 0) :
    (processSamples Real.tanh c d t l data).samples = data ∧
      (processSamples Real.tanh c d t l data).circuit = c := by
  induction data generalizing d t l with
  | nil => exact ⟨rfl, rfl⟩
  | cons x xs ih =>
    have hx : x = 0 := hdata x (by simp)
    subst hx
    have hxs : ∀ y ∈ xs, y = 0 := fun y hy => hdata y (by simp [hy])
    simp only [processSamples, processSample_zero_of_atRest hz c hc]
    exact ⟨by rw [(ih _ _ _ hxs).1], (ih _ _ _ hxs).2⟩

theorem processChannels_zero
    (hz : ∀ c : K.Coefficients, K.processSample c K.resetState 0 = (0, K.resetState))
    (numChannels : Nat) (circuits : List (TubeScreamerCircuit K)) (buffer : AudioBuffer ℝ)
    (d t l : SmoothedValue ℝ) (hc : numChannels ≤ circuits.length)
    (hb : numChannels ≤ buffer.length) (hrest : ∀ c ∈ circuits, c.atRest)
    (hzero : ∀ ch ∈ buffer, ∀ x ∈ ch, x = 0) :
    ∃ r, processChannels Real.tanh numChannels circuits buffer d t l = some r ∧
      r.buffer = buffer ∧ r.circuits = circuits := by
  induction numChannels generalizing circuits buffer d t l with
  | zero => exact ⟨_, rfl, rfl, rfl⟩
  | succ n ih =>
    cases circuits with
    | nil => simp at hc
    | cons circuit circuits =>
      cases buffer with
      | nil => simp at hb
      | cons channelData buffer =>
        obtain ⟨hs, hci⟩ := processSamples_zero hz circuit (hrest circuit (by simp)) d t l
          channelData (hzero channelData (by simp))
        obtain ⟨r, hr, hrb, hrc⟩ :=
          ih circuits buffer (processSamples Real.tanh circuit d t l channelData).driveSmoothed
            (processSamples Real.tanh circuit d t l channelData).toneSmoothed
            (processSamples Real.tanh circuit d t l channelData).levelSmoothed
            (by simpa using hc) (by simpa using hb)
            (fun c hc => hrest c (by simp [hc])) (fun ch hch => hzero ch (by simp [hch]))
        refine ⟨_, by simp only [processChannels, hr, Option.map_some']; rfl, ?_, ?_⟩
        · simp only [hs, hrb]
        · simp only [hci, hrc]

theorem processBlock_zero
    (hz : ∀ c : K.Coefficients, K.processSample c K.resetState 0 = (0, K.resetState))
    (p : TeubeCreamerAudioProcessor K) (parameters : Parameters ℝ) (buffer : AudioBuffer ℝ)
    (hlen : p.tubeScreamerCircuits.length = p.totalNumInputChannels)
    (hrest : ∀ c ∈ p.tubeScreamerCircuits, c.atRest)
    (hin : p.totalNumInputChannels ≤ buffer.length)
    (hout : p.totalNumOutputChannels ≤ buffer.length)
    (hzero : ∀ ch ∈ buffer, ∀ x ∈ ch, x = 0) :
    ∃ q, processBlock Real.tanh p parameters buffer = some (q, buffer) ∧
      q.tubeScreamerCircuits.length = q.totalNumInputChannels ∧
      (∀ c ∈ q.tubeScreamerCircuits, c.atRest) ∧
      q.totalNumInputChannels = p.totalNumInputChannels ∧
      q.totalNumOutputChannels = p.totalNumOutputChannels := by
  have hcl := clearChannels_of_zero p.totalNumInputChannels
    (p.totalNumOutputChannels - p.totalNumInputChannels) buffer (by omega) hzero
  have hrest2 : ∀ c ∈ p.tubeScreamerCircuits.map (fun circuit =>
      circuit.updateFilters
        (p.driveSmoothed.setTargetValue parameters.drive).getCurrentValue
        (p.toneSmoothed.setTargetValue parameters.tone).getCurrentValue), c.atRest := by
    intro c hc
    obtain ⟨c0, hc0, rfl⟩ := List.mem_map.mp hc
    exact hrest c0 hc0
  obtain ⟨r, hr, hrb, hrc⟩ := processChannels_zero hz p.totalNumInputChannels _ buffer
    (p.driveSmoothed.setTargetValue parameters.drive)
    (p.toneSmoothed.setTargetValue parameters.tone)
    (p.levelSmoothed.setTargetValue parameters.level)
    (by simp [hlen]) hin hrest2 hzero
  refine ⟨{ p with
              tubeScreamerCircuits := r.circuits
              driveSmoothed := r.driveSmoothed
              toneSmoothed := r.toneSmoothed
              levelSmoothed := r.levelSmoothed }, ?_, ?_, ?_, rfl, rfl⟩
  · simp only [processBlock, hcl, Option.bind_eq_bind, Option.some_bind, hr, Option.map_some',
      hrb]
  · simp [hrc, hlen]
  · simp only [hrc]
    exact hrest2

theorem processBlocks_zero
    (hz : ∀ c : K.Coefficients, K.processSample c K.resetState 0 = (0, K.resetState))
    (blocks : List (Parameters ℝ × AudioBuffer ℝ)) (p : TeubeCreamerAudioProcessor K)
    (hlen : p.tubeScreamerCircuits.length = p.totalNumInputChannels)
    (hrest : ∀ c ∈ p.tubeScreamerCircuits, c.atRest)
    (hchan : ∀ b ∈ blocks,
      p.totalNumInputChannels ≤ b.2.length ∧ p.totalNumOutputChannels ≤ b.2.length)
    (hzero : ∀ b ∈ blocks, ∀ ch ∈ b.2, ∀ x ∈ ch, x = 0) :
    ∃ q, processBlocks Real.tanh p blocks = some (q, blocks.map Prod.snd) ∧
      ∀ c ∈ q.tubeScreamerCircuits, c.atRest := by
  induction blocks generalizing p with
  | nil => exact ⟨p, rfl, hrest⟩
  | cons b rest ih =>
    obtain ⟨q1, h1, hlen1, hrest1, hin1, hout1⟩ :=
      processBlock_zero hz p b.1 b.2 hlen hrest (hchan b (by simp)).1 (hchan b (by simp)).2
        (hzero b (by simp))
    obtain ⟨q, h2, hq⟩ := ih q1 hlen1 hrest1
      (fun b2 hb2 => by rw [hin1, hout1]; exact hchan b2 (by simp [hb2]))
      (fun b2 hb2 => hzero b2 (by simp [hb2]))
    refine ⟨q, ?_, hq⟩
    simp only [processBlocks, h1, Option.bind_eq_bind, Option.some_bind, h2, Option.map_some',
      List.map_cons]

/-- C8: a processor fresh from `prepareToPlay`, on a filter library whose
step maps zero memory and zero input to zero output and zero memory, is fed
any number of all-zero blocks, with any parameter values: every call
completes, every buffer comes back as it went in (all zeros), and in the end
every filter memory of every circuit is still the reset state. -/
theorem silence_fixed_point (K : IIRKit ℝ)
    (hz : ∀ c : K.Coefficients, K.processSample c K.resetState 0 = (0, K.resetState))
    (p0 : TeubeCreamerAudioProcessor K) (sampleRate : ℝ) (samplesPerBlock : Int)
    (blocks : List (Parameters ℝ × AudioBuffer ℝ))
    (hchan : ∀ b ∈ blocks,
      p0.totalNumInputChannels ≤ b.2.length ∧ p0.totalNumOutputChannels ≤ b.2.length)
    (hzero : ∀ b ∈ blocks, ∀ ch ∈ b.2, ∀ x ∈ ch, x = 0) :
    ∃ q outs,
      processBlocks Real.tanh (p0.prepareToPlay sampleRate samplesPerBlock) blocks =
          some (q, outs) ∧
        outs = blocks.map Prod.snd ∧
        (∀ out ∈ outs, ∀ ch ∈ out, ∀ x ∈ ch, x = 0) ∧
        ∀ c ∈ q.tubeScreamerCircuits, c.atRest := by
  have h := processBlocks_zero hz blocks (p0.prepareToPlay sampleRate samplesPerBlock)
    (by simp [prepareToPlay])
    (by
      intro c hc
      simp only [prepareToPlay, List.map_replicate] at hc
      rw [List.eq_of_mem_replicate hc]
      exact ⟨rfl, rfl, rfl⟩)
    hchan hzero
  obtain ⟨q, hq, hrest⟩ := h
  refine ⟨q, _, hq, rfl, ?_, hrest⟩
  intro out hout
  obtain ⟨b, hb, rfl⟩ := List.mem_map.mp hout
  exact hzero b hb

/-- C8 on the first-order library: the stereo processor prepared at 44100 Hz
and two silent blocks of two frames, drive 0, tone 0.5, level 1. -/
theorem silence_fixed_point_witness :
    ∃ q outs,
      processBlocks Real.tanh (stereoExample ℝ 44100)
          [({ drive := 0, tone := 0.5, level := 1 }, [[0, 0], [0, 0]]),
            ({ drive := 0, tone := 0.5, level := 1 }, [[0, 0], [0, 0]])] = some (q, outs) ∧
        outs = [[[0, 0], [0, 0]], [[0, 0], [0, 0]]] ∧
        (∀ out ∈ outs, ∀ ch ∈ out, ∀ x ∈ ch, x = 0) ∧
        ∀ c ∈ q.tubeScreamerCircuits, c.atRest :=
  silence_fixed_point (firstOrderKit ℝ) (by intro c; simp [firstOrderKit])
    (create (firstOrderKit ℝ) 0 { drive := 0.5, tone := 0.5, level := 0.5 } 2 2) 44100 1
    [({ drive := 0, tone := 0.5, level := 1 }, [[0, 0], [0, 0]]),
      ({ drive := 0, tone := 0.5, level := 1 }, [[0, 0], [0, 0]])]
    (by simp [create]) (by simp)

end Silence

/-! ## Configuration -/

section Configuration

open TeubeCreamerAudioProcessor TubeScreamerCircuit

variable {α : Type} [LinearOrderedField α] {K : IIRKit α}

/-- C9 as stated fails: at a sample rate of 8000 Hz and `toneParam = 1` the
tone cutoff is 5000 Hz, not below `sampleRate / 2 = 4000` Hz, and at a sample
rate of 0 the rate is not positive, yet neither `updateFilters` nor `prepare`
ends in `InvalidConfiguration`: the low-pass is requested at 5000 Hz for
8000 Hz, and the circuit is prepared with sample rate 0. -/
theorem configuration_not_rejected :
    (8000 : ℚ) / 2 ≤ toneCutoff (1 : ℚ) ∧
      (((TubeScreamerCircuit.default (firstOrderKit ℚ)).prepare 8000 512).updateFiltersOutcome
          0.5 1 ≠ Except.error ConfigurationError.invalidConfiguration) ∧
      ((((TubeScreamerCircuit.default (firstOrderKit ℚ)).prepare 8000 512).updateFilters
          0.5 1).toneFilter.coefficients = (firstOrderKit ℚ).makeLowPass 8000 5000) ∧
      ((TubeScreamerCircuit.default (firstOrderKit ℚ)).prepareOutcome 0 512 ≠
          Except.error ConfigurationError.invalidConfiguration) ∧
      ((TubeScreamerCircuit.default (firstOrderKit ℚ)).prepare 0 512).sampleRate = 0 := by
  refine ⟨by norm_num [toneCutoff], ?_, ?_, ?_, rfl⟩
  · simp [updateFiltersOutcome]
  · simp [TubeScreamerCircuit.prepare, updateFilters, Filter.setCoefficients, toneCutoff]
    norm_num
  · simp [prepareOutcome]

/-- C9 amended: nothing is validated. For every sample rate (positive or
not), block size and parameter values, `prepare` and `updateFilters` complete;
`prepare` stores the sample rate as given, and the three designs are
requested at that rate for 20 Hz, `500 + 4500 * toneParam` Hz and 35 Hz,
whatever their relation to `sampleRate / 2`. -/
theorem configuration_never_rejected (c : TubeScreamerCircuit K) (sampleRateIn : α)
    (samplesPerBlock : Int) (driveParam toneParam : α) :
    c.prepareOutcome sampleRateIn samplesPerBlock =
        Except.ok (c.prepare sampleRateIn samplesPerBlock) ∧
      (c.prepare sampleRateIn samplesPerBlock).sampleRate = sampleRateIn ∧
      (c.prepare sampleRateIn samplesPerBlock).updateFiltersOutcome driveParam toneParam =
        Except.ok ((c.prepare sampleRateIn samplesPerBlock).updateFilters driveParam toneParam) ∧
      ((c.prepare sampleRateIn samplesPerBlock).updateFilters driveParam
          toneParam).inputFilter.coefficients = K.makeHighPass sampleRateIn 20 ∧
      ((c.prepare sampleRateIn samplesPerBlock).updateFilters driveParam
          toneParam).toneFilter.coefficients =
        K.makeLowPass sampleRateIn (500 + toneParam * 4500) ∧
      ((c.prepare sampleRateIn samplesPerBlock).updateFilters driveParam
          toneParam).outputFilter.coefficients = K.makeHighPass sampleRateIn 35 :=
  ⟨rfl, rfl, rfl, rfl, rfl, rfl⟩

theorem midRampExample_levelSmoothed :
    (midRampExample ℝ).levelSmoothed =
      { currentValue := 0.5 + 2 / 4410, target := 1, countdown := 2203, step := 1 / 4410,
        stepsToTarget := 2205 } := by
  simp only [midRampExample, stereoExample_levelSmoothed]
  simp [SmoothedValue.setTargetValue, SmoothedValue.getNextValue, SmoothedValue.isSmoothing]
  norm_num

/-- The mid-ramp example is a state the processor reaches: it is what
`processBlock` leaves of the stereo example after one silent frame with the
level parameter moved to 1. -/
theorem midRampExample_reached :
    processBlock Real.tanh (stereoExample ℝ 44100) { drive := 0.5, tone := 0.5, level := 1 }
        [[0], [0]] = some (midRampExample ℝ, [[0], [0]]) := by
  simp only [processBlock, midRampExample]
  simp [stereoExample, create, prepareToPlay, clearChannels_count_zero, processChannels,
    processSamples, List.replicate, SmoothedValue.reset, SmoothedValue.resetSteps,
    SmoothedValue.setCurrentAndTargetValue, SmoothedValue.fresh, floor_ramp,
    SmoothedValue.castToInt, SmoothedValue.setTargetValue, SmoothedValue.getNextValue, SmoothedValue.isSmoothing,
    SmoothedValue.getCurrentValue, TubeScreamerCircuit.processSample,
    TubeScreamerCircuit.prepare, updateFilters, Filter.processSample, Filter.setCoefficients,
    Filter.reset, Filter.prepare, firstOrderKit, clipSample_zero]

/-- C10 as stated fails: the level smoother of `midRampExample` is in
mid-ramp at 0.5 + 2/4410 with step 1/4410 and target 1; after `prepareToPlay`
at 48000 Hz its current value is 1, further from the value before than one
step. -/
theorem prepareToPlay_jumps_to_target :
    (midRampExample ℝ).levelSmoothed.currentValue = 0.5 + 2 / 4410 ∧
      (midRampExample ℝ).levelSmoothed.step = 1 / 4410 ∧
      (midRampExample ℝ).levelSmoothed.target = 1 ∧
      ((midRampExample ℝ).prepareToPlay 48000 1).levelSmoothed.currentValue = 1 ∧
      ¬ (|((midRampExample ℝ).prepareToPlay 48000 1).levelSmoothed.currentValue -
            (midRampExample ℝ).levelSmoothed.currentValue| ≤
          |(midRampExample ℝ).levelSmoothed.step|) := by
  have h := midRampExample_levelSmoothed
  have h2 : ((midRampExample ℝ).prepareToPlay 48000 1).levelSmoothed.currentValue = 1 := by
    simp [prepareToPlay, SmoothedValue.reset, SmoothedValue.resetSteps,
      SmoothedValue.setCurrentAndTargetValue, h]
  refine ⟨by rw [h], by rw [h], by rw [h], h2, ?_⟩
  rw [h2, h]
  show ¬ (|(1 : ℝ) - (0.5 + 2 / 4410)| ≤ |(1 : ℝ) / 4410|)
  rw [abs_of_pos (by norm_num : (0 : ℝ) < 1 - (0.5 + 2 / 4410)),
    abs_of_pos (by norm_num : (0 : ℝ) < 1 / 4410)]
  norm_num

theorem floor_ramp_48000 : Int.floor ((0.05 : ℝ) * 48000) = 2400 := by
  have h : (0.05 : ℝ) * 48000 = 2400 := by norm_num
  rw [h]
  exact Int.floor_ofNat 2400

/-- C10 amended: `prepareToPlay` resets each smoother. For every sample
rate the target is kept, the current value BECOMES the target and the
countdown 0 (a ramp in progress ends in a jump to its target), and the step
stays; for the sample rates at which `floor (0.05 * sampleRate)` fits a 32-bit
`int` the ramp length becomes that many steps; and a smoother that was not in
mid-ramp (current value = target) keeps its current value. -/
theorem prepareToPlay_resets_smoothers [FloorRing α] (p : TeubeCreamerAudioProcessor K)
    (sampleRate : α) (samplesPerBlock : Int) :
    ((p.prepareToPlay sampleRate samplesPerBlock).driveSmoothed.currentValue =
          p.driveSmoothed.target ∧
        (p.prepareToPlay sampleRate samplesPerBlock).driveSmoothed.target =
          p.driveSmoothed.target ∧
        (p.prepareToPlay sampleRate samplesPerBlock).driveSmoothed.countdown = 0 ∧
        (p.prepareToPlay sampleRate samplesPerBlock).driveSmoothed.step =
          p.driveSmoothed.step) ∧
      ((p.prepareToPlay sampleRate samplesPerBlock).toneSmoothed.currentValue =
          p.toneSmoothed.target ∧
        (p.prepareToPlay sampleRate samplesPerBlock).toneSmoothed.target =
          p.toneSmoothed.target ∧
        (p.prepareToPlay sampleRate samplesPerBlock).toneSmoothed.countdown = 0 ∧
        (p.prepareToPlay sampleRate samplesPerBlock).toneSmoothed.step =
          p.toneSmoothed.step) ∧
      ((p.prepareToPlay sampleRate samplesPerBlock).levelSmoothed.currentValue =
          p.levelSmoothed.target ∧
        (p.prepareToPlay sampleRate samplesPerBlock).levelSmoothed.target =
          p.levelSmoothed.target ∧
        (p.prepareToPlay sampleRate samplesPerBlock).levelSmoothed.countdown = 0 ∧
        (p.prepareToPlay sampleRate samplesPerBlock).levelSmoothed.step =
          p.levelSmoothed.step) ∧
      (-2147483648 ≤ Int.floor (0.05 * sampleRate) →
        Int.floor (0.05 * sampleRate) ≤ 2147483647 →
        (p.prepareToPlay sampleRate samplesPerBlock).driveSmoothed.stepsToTarget =
            Int.floor (0.05 * sampleRate) ∧
          (p.prepareToPlay sampleRate samplesPerBlock).toneSmoothed.stepsToTarget =
            Int.floor (0.05 * sampleRate) ∧
          (p.prepareToPlay sampleRate samplesPerBlock).levelSmoothed.stepsToTarget =
            Int.floor (0.05 * sampleRate)) ∧
      (p.driveSmoothed.currentValue = p.driveSmoothed.target →
        p.toneSmoothed.currentValue = p.toneSmoothed.target →
        p.levelSmoothed.currentValue = p.levelSmoothed.target →
        (p.prepareToPlay sampleRate samplesPerBlock).driveSmoothed.currentValue =
            p.driveSmoothed.currentValue ∧
          (p.prepareToPlay sampleRate samplesPerBlock).toneSmoothed.currentValue =
            p.toneSmoothed.currentValue ∧
          (p.prepareToPlay sampleRate samplesPerBlock).levelSmoothed.currentValue =
            p.levelSmoothed.currentValue) := by
  refine ⟨⟨rfl, rfl, rfl, rfl⟩, ⟨rfl, rfl, rfl, rfl⟩, ⟨rfl, rfl, rfl, rfl⟩,
    fun hlo hhi => ?_, fun hd ht hl => ⟨?_, ?_, ?_⟩⟩
  · have h := castToInt_of_fits hlo hhi
    exact ⟨h, h, h⟩
  · rw [hd]; rfl
  · rw [ht]; rfl
  · rw [hl]; rfl

/-- C10 amended, on the stereo example with all three smoothers settled at
0.5: re-preparing at 48000 Hz gives ramps of 2400 steps (a number that fits
an `int`) and keeps the three current values. -/
theorem prepareToPlay_resets_smoothers_witness :
    (((stereoExample ℝ 44100).prepareToPlay 48000 1).driveSmoothed.stepsToTarget = 2400 ∧
        ((stereoExample ℝ 44100).prepareToPlay 48000 1).toneSmoothed.stepsToTarget = 2400 ∧
        ((stereoExample ℝ 44100).prepareToPlay 48000 1).levelSmoothed.stepsToTarget = 2400) ∧
      (((stereoExample ℝ 44100).prepareToPlay 48000 1).driveSmoothed.currentValue =
          (stereoExample ℝ 44100).driveSmoothed.currentValue ∧
        ((stereoExample ℝ 44100).prepareToPlay 48000 1).toneSmoothed.currentValue =
          (stereoExample ℝ 44100).toneSmoothed.currentValue ∧
        ((stereoExample ℝ 44100).prepareToPlay 48000 1).levelSmoothed.currentValue =
          (stereoExample ℝ 44100).levelSmoothed.currentValue) := by
  have h := prepareToPlay_resets_smoothers (stereoExample ℝ 44100) 48000 1
  have hsteps := h.2.2.2.1 (by rw [floor_ramp_48000]; norm_num)
    (by rw [floor_ramp_48000]; norm_num)
  rw [floor_ramp_48000] at hsteps
  exact ⟨hsteps, h.2.2.2.2 rfl rfl rfl⟩

end Configuration

/-! ## Channel isolation -/

section Isolation

open TeubeCreamerAudioProcessor TubeScreamerCircuit

variable {α : Type} [LinearOrderedField α] {K : IIRKit α}

theorem processChannels_isolation (tanh : α → α) (numChannels N : Nat)
    (circuits : List (TubeScreamerCircuit K)) (buffer1 buffer2 : AudioBuffer α)
    (d t l : SmoothedValue α) (c : Nat) (hcs : numChannels ≤ circuits.length)
    (hb1 : numChannels ≤ buffer1.length) (hb2 : numChannels ≤ buffer2.length)
    (hN1 : ∀ ch ∈ buffer1.take numChannels, ch.length = N)
    (hN2 : ∀ ch ∈ buffer2.take numChannels, ch.length = N) (hc : c < numChannels)
    (hagree : buffer1[c]? = buffer2[c]?) :
    ∃ r1 r2 data circuit,
      processChannels tanh numChannels circuits buffer1 d t l = some r1 ∧
        processChannels tanh numChannels circuits buffer2 d t l = some r2 ∧
        r1.buffer[c]? = some data ∧ r2.buffer[c]? = some data ∧
        r1.circuits[c]? = some circuit ∧ r2.circuits[c]? = some circuit := by
  induction numChannels generalizing circuits buffer1 buffer2 d t l c with
  | zero => omega
  | succ n ih =>
    cases circuits with
    | nil => simp at hcs
    | cons circuit circuits =>
      cases buffer1 with
      | nil => simp at hb1
      | cons ch1 buffer1 =>
        cases buffer2 with
        | nil => simp at hb2
        | cons ch2 buffer2 =>
          have hl1 : ch1.length = N := hN1 ch1 (by simp)
          have hl2 : ch2.length = N := hN2 ch2 (by simp)
          have hN1r : ∀ ch ∈ buffer1.take n, ch.length = N :=
            fun ch hch => hN1 ch (by simp [List.take_succ_cons, hch])
          have hN2r : ∀ ch ∈ buffer2.take n, ch.length = N :=
            fun ch hch => hN2 ch (by simp [List.take_succ_cons, hch])
          have hcsr : n ≤ circuits.length := by simpa using hcs
          have hb1r : n ≤ buffer1.length := by simpa using hb1
          have hb2r : n ≤ buffer2.length := by simpa using hb2
          cases c with
          | zero =>
            have heq : ch1 = ch2 := by simpa using hagree
            subst heq
            obtain ⟨r1, hr1, _⟩ := processChannels_smoothers tanh n N circuits buffer1
              (processSamples tanh circuit d t l ch1).driveSmoothed
              (processSamples tanh circuit d t l ch1).toneSmoothed
              (processSamples tanh circuit d t l ch1).levelSmoothed hcsr hb1r hN1r
            obtain ⟨r2, hr2, _⟩ := processChannels_smoothers tanh n N circuits buffer2
              (processSamples tanh circuit d t l ch1).driveSmoothed
              (processSamples tanh circuit d t l ch1).toneSmoothed
              (processSamples tanh circuit d t l ch1).levelSmoothed hcsr hb2r hN2r
            refine ⟨_, _, (processSamples tanh circuit d t l ch1).samples,
              (processSamples tanh circuit d t l ch1).circuit,
              by simp only [processChannels, hr1, Option.map_some']; rfl,
              by simp only [processChannels, hr2, Option.map_some']; rfl, ?_, ?_, ?_, ?_⟩ <;> simp
          | succ c =>
            obtain ⟨hd1, ht1, hv1⟩ := processSamples_smoothers tanh circuit d t l ch1
            obtain ⟨hd2, ht2, hv2⟩ := processSamples_smoothers tanh circuit d t l ch2
            rw [hl1] at hd1 ht1 hv1
            rw [hl2] at hd2 ht2 hv2
            obtain ⟨r1, r2, data, circ, hr1, hr2, ho1, ho2, hq1, hq2⟩ :=
              ih circuits buffer1 buffer2
                ((fun s : SmoothedValue α => s.getNextValue.2)^[N] d)
                ((fun s : SmoothedValue α => s.getNextValue.2)^[N] t)
                ((fun s : SmoothedValue α => s.getNextValue.2)^[N] l) c hcsr hb1r hb2r hN1r hN2r
                (by omega) (by simpa using hagree)
            refine ⟨_, _, data, circ,
              by simp only [processChannels, hd1, ht1, hv1, hr1, Option.map_some']; rfl,
              by simp only [processChannels, hd2, ht2, hv2, hr2, Option.map_some']; rfl,
              ?_, ?_, ?_, ?_⟩ <;> simpa

/-- C11: channel isolation as a two-run property. A processor with one
circuit per input channel processes, with the same parameter values, two
buffers of the same channel count whose channels all hold `N` samples and
which agree on input channel `c`. Both calls complete, channel `c` of the
two output buffers holds the same samples, and circuit `c` ends in the same
state, whatever the other channels hold. -/
theorem processBlock_channel_isolation (tanh : α → α) (p : TeubeCreamerAudioProcessor K)
    (parameters : Parameters α) (buffer1 buffer2 : AudioBuffer α) (N c : Nat)
    (hcirc : p.tubeScreamerCircuits.length = p.totalNumInputChannels)
    (hlen : buffer1.length = buffer2.length)
    (hin : p.totalNumInputChannels ≤ buffer1.length)
    (hout : p.totalNumOutputChannels ≤ buffer1.length)
    (hN1 : ∀ ch ∈ buffer1, ch.length = N) (hN2 : ∀ ch ∈ buffer2, ch.length = N)
    (hc : c < p.totalNumInputChannels) (hagree : buffer1[c]? = buffer2[c]?) :
    ∃ q1 out1 q2 out2 data circuit,
      processBlock tanh p parameters buffer1 = some (q1, out1) ∧
        processBlock tanh p parameters buffer2 = some (q2, out2) ∧
        out1[c]? = some data ∧ out2[c]? = some data ∧
        q1.tubeScreamerCircuits[c]? = some circuit ∧
        q2.tubeScreamerCircuits[c]? = some circuit := by
  obtain ⟨cl1, hcl1, hmap1, htake1⟩ :=
    clearChannels_some p.totalNumInputChannels
      (p.totalNumOutputChannels - p.totalNumInputChannels) buffer1 (by omega)
  obtain ⟨cl2, hcl2, hmap2, htake2⟩ :=
    clearChannels_some p.totalNumInputChannels
      (p.totalNumOutputChannels - p.totalNumInputChannels) buffer2 (by omega)
  have hlen1 : cl1.length = buffer1.length := by
    simpa using congrArg List.length hmap1
  have hlen2 : cl2.length = buffer2.length := by
    simpa using congrArg List.length hmap2
  have hg1 : cl1[c]? = buffer1[c]? := by
    rw [← List.getElem?_take_of_lt hc, htake1, List.getElem?_take_of_lt hc]
  have hg2 : cl2[c]? = buffer2[c]? := by
    rw [← List.getElem?_take_of_lt hc, htake2, List.getElem?_take_of_lt hc]
  obtain ⟨r1, r2, data, circuit, hr1, hr2, ho1, ho2, hq1, hq2⟩ :=
    processChannels_isolation tanh p.totalNumInputChannels N
      (p.tubeScreamerCircuits.map fun circuit =>
        circuit.updateFilters
          (p.driveSmoothed.setTargetValue parameters.drive).getCurrentValue
          (p.toneSmoothed.setTargetValue parameters.tone).getCurrentValue)
      cl1 cl2 (p.driveSmoothed.setTargetValue parameters.drive)
      (p.toneSmoothed.setTargetValue parameters.tone)
      (p.levelSmoothed.setTargetValue parameters.level) c
      (by simp [hcirc]) (by omega) (by omega)
      (fun ch hch => hN1 ch (by rw [htake1] at hch; exact List.mem_of_mem_take hch))
      (fun ch hch => hN2 ch (by rw [htake2] at hch; exact List.mem_of_mem_take hch))
      hc (by rw [hg1, hg2, hagree])
  refine ⟨{ p with
              tubeScreamerCircuits := r1.circuits
              driveSmoothed := r1.driveSmoothed
              toneSmoothed := r1.toneSmoothed
              levelSmoothed := r1.levelSmoothed }, r1.buffer,
          { p with
              tubeScreamerCircuits := r2.circuits
              driveSmoothed := r2.driveSmoothed
              toneSmoothed := r2.toneSmoothed
              levelSmoothed := r2.levelSmoothed }, r2.buffer, data, circuit,
          ?_, ?_, ho1, ho2, hq1, hq2⟩
  · simp only [processBlock, hcl1, Option.bind_eq_bind, Option.some_bind, hr1, Option.map_some']
  · simp only [processBlock, hcl2, Option.bind_eq_bind, Option.some_bind, hr2, Option.map_some']

/-- C11 on the stereo example prepared at 44100 Hz with the level moved to
1: the frames `[[2], [1]]` and `[[5], [1]]` differ on channel 0 and agree on
channel 1; channel 1 of the output and circuit 1 come out the same. -/
theorem processBlock_channel_isolation_witness :
    ∃ q1 out1 q2 out2 data circuit,
      processBlock Real.tanh (stereoExample ℝ 44100) { drive := 0.5, tone := 0.5, level := 1 }
          [[2], [1]] = some (q1, out1) ∧
        processBlock Real.tanh (stereoExample ℝ 44100) { drive := 0.5, tone := 0.5, level := 1 }
          [[5], [1]] = some (q2, out2) ∧
        out1[1]? = some data ∧ out2[1]? = some data ∧
        q1.tubeScreamerCircuits[1]? = some circuit ∧
        q2.tubeScreamerCircuits[1]? = some circuit :=
  processBlock_channel_isolation Real.tanh (stereoExample ℝ 44100)
    { drive := 0.5, tone := 0.5, level := 1 } [[2], [1]] [[5], [1]] 1 1
    (by simp [stereoExample, create, prepareToPlay]) rfl
    (by simp [stereoExample, create, prepareToPlay])
    (by simp [stereoExample, create, prepareToPlay]) (by simp) (by simp)
    (by simp [stereoExample, create, prepareToPlay]) rfl

end Isolation

end TeubeCreamer
